import Mathlib

/-!
# Redis hash-field fetcher (`src/main.go`)

A shallow embedding of the program `main.go` and of the part of its
environment that it talks to.

* `Fetch.main` is the translation of `func main()`; the process state
  (clients created, requests sent, writes to standard output, state of the
  store) is passed explicitly.
* The client library `github.com/redis/go-redis/v9`, the package `fmt` and the
  Redis server are not part of the repository.  The program is embedded over an
  arbitrary `Backend` (whatever answers a request that `main` hands to the
  client), so that the results about `main` hold for every behaviour of the
  library and the server.  A concrete store, `Server.exec`, is given for the
  statements that speak about the contents of the store.
* What the client does on the connection for one call is a backend of its own,
  `redis.process`: the retry loop of the library over a backend that answers
  single attempts.  `Backend.logged` records what a backend receives.
-/

namespace Fetch

/-! ## Go values -/

/-- A Go `string`: an immutable sequence of bytes (not necessarily valid UTF-8). -/
abbrev GoString := List UInt8

/-- The value of a Go string literal: the UTF-8 encoding of its characters. -/
def lit (s : String) : GoString := s.data.flatMap String.utf8EncodeChar

/-- A non-nil Go `error` value, as the client can return it.  `Nil` is
`redis.Nil` (the reply was a nil bulk string); the other constructors are a
connection failure, a malformed reply, and any other error, each with its text. -/
inductive Error where
  | Nil
  | dial (text : GoString)
  | proto (text : GoString)
  | other (text : GoString)
deriving DecidableEq, Repr

/-- The pair `(val, err)` returned by `rdb.HGet(...).Result()`; `err = none` is
the Go `nil` error. -/
structure Reply where
  val : GoString
  err : Option Error
deriving DecidableEq, Repr

/-- The fields of `redis.Options` that `main` sets. -/
structure Options where
  Addr : GoString
  Password : GoString
  DB : Int
deriving DecidableEq, Repr

/-- A request for the store.  `HSet` is never issued by `main`; it is part of the
command surface of the store, so that "only a read is sent" says something. -/
inductive Cmd where
  | HGet (key field : GoString)
  | HSet (key field value : GoString)
deriving DecidableEq, Repr

/-- Whether a command can change the store. -/
def Cmd.isWrite : Cmd → Bool
  | Cmd.HGet _ _ => false
  | Cmd.HSet _ _ _ => true

/-- The environment of the program: whatever answers a request, with its own
state `σ`.  For `main` this is everything behind a command method of the client
(the connection handling and the retries of the library, the network and the
server). -/
abbrev Backend (σ : Type) := Cmd → σ → Reply × σ

/-- The state of the process and of its environment. -/
structure Proc (σ : Type) where
  /-- Command-line arguments (`os.Args`); never read by `main`. -/
  args : List GoString
  /-- Environment variables; never read by `main`. -/
  environ : List GoString
  /-- State of the store. -/
  srv : σ
  /-- Options of every client created by `redis.NewClient`, in order. -/
  opened : List Options
  /-- Requests that the program has handed to the client, in order: one entry per
  call of a command method.  What the client puts on the connection for a call
  is not recorded here (see `Backend.logged` and `redis.process`). -/
  sent : List Cmd
  /-- Writes made to standard output, in order (one entry per `Write` call). -/
  writes : List GoString

/-- The process state when `main` is entered. -/
def Proc.start {σ : Type} (args environ : List GoString) (srv : σ) : Proc σ :=
  { args := args, environ := environ, srv := srv, opened := [], sent := [], writes := [] }

/-- The bytes on standard output: the writes, concatenated. -/
def Proc.stdout {σ : Type} (p : Proc σ) : GoString := p.writes.flatten

/-- How `main` ends: it returns, or it panics with a value. -/
inductive Outcome where
  | returned
  | panicked (v : Error)
deriving DecidableEq, Repr

/-- Exit status of the process: 0 when `main` returns, 2 when the Go runtime
ends the program on an unrecovered panic. -/
def Outcome.exitCode : Outcome → Nat
  | Outcome.returned => 0
  | Outcome.panicked _ => 2

/-! ## The library calls used by `main` -/

namespace context

/-- The type `context.Context`; only the background context is used. -/
inductive Context where
  | background
deriving DecidableEq, Repr

/-- The call `context.Background()`. -/
def Background : Context := Context.background

end context

namespace redis

/-- The client `*redis.Client`: it holds its options. -/
structure Client where
  opt : Options
deriving DecidableEq, Repr

/-- The call `redis.NewClient(opt)`: records the options; no connection is made
until the first command. -/
def NewClient {σ : Type} (opt : Options) (p : Proc σ) : Client × Proc σ :=
  (⟨opt⟩, { p with opened := p.opened ++ [opt] })

/-- The call `rdb.HGet(ctx, key, field).Result()` as `main` sees it: the request
is handed to the backend once and its `(val, err)` is returned.  The attempts
that the client makes on the connection for this call belong to the backend;
`redis.process` is the backend that makes them. -/
def Client.HGet {σ : Type} (_rdb : Client) (E : Backend σ) (_ctx : context.Context)
    (key field : GoString) (p : Proc σ) : Reply × Proc σ :=
  let (r, s) := E (Cmd.HGet key field) p.srv
  (r, { p with srv := s, sent := p.sent ++ [Cmd.HGet key field] })

end redis

namespace fmt

/-- The text produced by `fmt.Println(operands...)` for string operands: the
operands in their default format (the bytes of the string, unchanged), a space
between operands, and a newline appended. -/
def Sprintln (operands : List GoString) : GoString :=
  (lit " ").intercalate operands ++ lit "\n"

/-- The call `fmt.Println(operands...)`: one write of the text to standard output. -/
def Println {σ : Type} (operands : List GoString) (p : Proc σ) : Proc σ :=
  { p with writes := p.writes ++ [Sprintln operands] }

end fmt

/-! ## The program -/

/-- The key literal of `main.go`, line 17. -/
def targetKey : GoString :=
  lit "helloworldworkflow-app||dapr.internal.dapr-tests.helloworldworkflow-app.workflow||51d33015-7f97-4208-b2ed-19338e591aef||history-000005"

/-- The function `main` of `main.go`. -/
def main {σ : Type} (E : Backend σ) (p : Proc σ) : Outcome × Proc σ :=
  let (rdb, p) := redis.NewClient
    { Addr := lit "localhost:6379"
      Password := lit ""
      DB := 0 } p
  let ctx := context.Background
  let (r, p) := rdb.HGet E ctx targetKey (lit "data") p
  match r.err with
  | some err => (Outcome.panicked err, p)
  | none => (Outcome.returned, fmt.Println [lit "key", r.val] p)

/-! ## A concrete store -/

/-- A hash: field to value. -/
abbrev Hash := List (GoString × GoString)

/-- Modelled from the spec: the contents of the store, a map from key to hash
(the Redis server is not under `src/`). -/
abbrev Store := List (GoString × Hash)

/-- Modelled from the spec: the store together with the state of the connection
to it; `fault = none` is a reachable store, `fault = some e` means every request
fails with `e` ("the store is unreachable or refuses the connection"). -/
structure Server where
  fault : Option Error
  db : Store
deriving DecidableEq, Repr

/-- Modelled from the spec: a write command of the store (a "write path", which
the fetcher does not have): setting one field of the hash at a key; the hash
is created when missing. -/
def Store.hset (s : Store) (key field value : GoString) : Store :=
  (key, (field, value) :: (s.lookup key).getD []) :: s

/-- Modelled from the spec: how the store answers a request ("a string returned
by the store, or absence (error) if the key/field does not exist or the
connection fails").  `HGET` reads and leaves the store as it is; a missing key
and a missing field both give the nil reply, which the client returns as
`redis.Nil` with an empty value.  The integer reply of `HSET` is not decoded. -/
def Server.exec : Backend Server
  | _, ⟨some e, db⟩ => (⟨[], some e⟩, ⟨some e, db⟩)
  | Cmd.HGet key field, ⟨none, db⟩ =>
    match db.lookup key with
    | none => (⟨[], some Error.Nil⟩, ⟨none, db⟩)
    | some h =>
      match h.lookup field with
      | none => (⟨[], some Error.Nil⟩, ⟨none, db⟩)
      | some v => (⟨v, none⟩, ⟨none, db⟩)
  | Cmd.HSet key field value, ⟨none, db⟩ =>
    (⟨[], none⟩, ⟨none, db.hset key field value⟩)

/-! ## The client on the connection -/

/-- The backend `W`, recording in its state every request that it receives, in
order. -/
def Backend.logged {σ : Type} (W : Backend σ) : Backend (σ × List Cmd) :=
  fun c st => ((W c st.1).1, ((W c st.1).2, st.2 ++ [c]))

namespace redis

/-- Modelled from the client library (go-redis v9, `shouldRetry`), which is not
under `src/`: the errors after which a command is tried again.  A refused
connection is retried; `redis.Nil` and a malformed reply are not; an error reply
of the server is retried when its text is "ERR max number of clients reached" or
starts with "LOADING ", "READONLY ", "CLUSTERDOWN " or "TRYAGAIN ". -/
def shouldRetry : Error → Bool
  | Error.Nil => false
  | Error.dial _ => true
  | Error.proto _ => false
  | Error.other text =>
    decide (text = lit "ERR max number of clients reached") ||
    decide (text.take 8 = lit "LOADING ") ||
    decide (text.take 9 = lit "READONLY ") ||
    decide (text.take 12 = lit "CLUSTERDOWN ") ||
    decide (text.take 9 = lit "TRYAGAIN ")

/-- Modelled from the client library (go-redis v9, `Options.init`): `main` leaves
`MaxRetries` unset, and the client then retries a command up to 3 times. -/
def defaultMaxRetries : Nat := 3

/-- Modelled from the client library (go-redis v9, the loop of
`baseClient.process`): one attempt on the backend `W`, and, while the attempt
fails with an error that `retry` accepts, up to `n` further attempts; the result
of the last attempt made is returned. -/
def attempts {σ : Type} (retry : Error → Bool) (W : Backend σ) (c : Cmd) : Nat → σ → Reply × σ
  | 0, s => W c s
  | n + 1, s =>
    match (W c s).1.err with
    | none => W c s
    | some e => if retry e then attempts retry W c n (W c s).2 else W c s

/-- Modelled from the client library (go-redis v9, `baseClient.process`): how the
client created by `main` answers a call of a command method, over a backend `W`
that answers single attempts.  The commands with which the library sets up a
connection that it has just opened (`HELLO`, `CLIENT SETINFO`) are not
modelled: `W` receives the attempts for the command only. -/
def process {σ : Type} (W : Backend σ) : Backend σ :=
  fun c s => attempts shouldRetry W c defaultMaxRetries s

end redis

/-- An error reply of a server that is still loading its data set. -/
def loadingError : Error :=
  Error.other (lit "LOADING Redis is loading the dataset in memory")

/-- A server that is loading its data set when the first request arrives and
holds "hello" afterwards; its state counts the requests received. -/
def startingServer : Backend Nat
  | _, 0 => (⟨[], some loadingError⟩, 1)
  | _, n + 1 => (⟨lit "hello", none⟩, n + 2)

/-! ## Runs of the program -/

/-- The reply that the backend gives to the request of `main` when the store is
in the state held by `p`. -/
def replyOf {σ : Type} (E : Backend σ) (p : Proc σ) : Reply :=
  (E (Cmd.HGet targetKey (lit "data")) p.srv).1

/-- Running the program `n` times in sequence: every run is a fresh process, and
it finds the store in the state in which the run before it left it. -/
def runs {σ : Type} (E : Backend σ) (args environ : List GoString) : Nat → σ → List (Outcome × Proc σ)
  | 0, _ => []
  | n + 1, s =>
    let r := main E (Proc.start args environ s)
    r :: runs E args environ n r.2.srv

/-- The two states of the process. -/
inductive State where
  | Running
  | Terminated
deriving DecidableEq, Repr

/-- A configuration of the state machine: the state, the process state, and how
`main` ended (`none` while it is running). -/
structure Config (σ : Type) where
  state : State
  proc : Proc σ
  outcome : Option Outcome

/-- The initial configuration: `Running`, nothing done yet. -/
def Config.init {σ : Type} (p : Proc σ) : Config σ :=
  { state := State.Running, proc := p, outcome := none }

/-- One step of the machine: a running process executes `main` to its end;
a terminated process has no step. -/
def step {σ : Type} (E : Backend σ) (c : Config σ) : Option (Config σ) :=
  match c.state with
  | State.Running =>
    let r := main E c.proc
    some { state := State.Terminated, proc := r.2, outcome := some r.1 }
  | State.Terminated => none

/-- The step relation of the machine. -/
def Step {σ : Type} (E : Backend σ) (c c2 : Config σ) : Prop := step E c = some c2

/-- The configurations reachable from the start in process state `p`. -/
def Reachable {σ : Type} (E : Backend σ) (p : Proc σ) (c : Config σ) : Prop :=
  Relation.ReflTransGen (Step E) (Config.init p) c

/-- A store that holds the hash `h` at the target key, with a working connection. -/
def Server.holding (h : Hash) : Server := { fault := none, db := [(targetKey, h)] }

/-! ## Basic facts -/

/-- The literal " " is the single byte 32. -/
theorem lit_space : lit " " = [32] := by decide

/-- The newline literal is the single byte 10. -/
theorem lit_newline : lit "\n" = [10] := by decide

/-- The bytes of the label "key". -/
theorem lit_key : lit "key" = [107, 101, 121] := by decide

/-- The label followed by the separating space. -/
theorem lit_key_space : lit "key " = lit "key" ++ lit " " := by decide

/-- The text that `fmt.Println("key", val)` writes. -/
theorem Sprintln_key (v : GoString) :
    fmt.Sprintln [lit "key", v] = lit "key " ++ v ++ lit "\n" := by
  simp [fmt.Sprintln, List.intercalate, List.intersperse, lit_key_space]

/-- The result of `main` when the request succeeds with value `v`. -/
theorem main_ok {σ : Type} (E : Backend σ) (p : Proc σ) (v : GoString)
    (h : replyOf E p = ⟨v, none⟩) :
    main E p = (Outcome.returned,
      { p with
        srv := (E (Cmd.HGet targetKey (lit "data")) p.srv).2
        opened := p.opened ++ [{ Addr := lit "localhost:6379", Password := lit "", DB := 0 }]
        sent := p.sent ++ [Cmd.HGet targetKey (lit "data")]
        writes := p.writes ++ [lit "key " ++ v ++ lit "\n"] }) := by
  unfold replyOf at h
  simp only [main, redis.NewClient, redis.Client.HGet, context.Background, fmt.Println,
    Sprintln_key, h]

/-- The result of `main` when the request fails with error `e`. -/
theorem main_err {σ : Type} (E : Backend σ) (p : Proc σ) (v : GoString) (e : Error)
    (h : replyOf E p = ⟨v, some e⟩) :
    main E p = (Outcome.panicked e,
      { p with
        srv := (E (Cmd.HGet targetKey (lit "data")) p.srv).2
        opened := p.opened ++ [{ Addr := lit "localhost:6379", Password := lit "", DB := 0 }]
        sent := p.sent ++ [Cmd.HGet targetKey (lit "data")] }) := by
  unfold replyOf at h
  simp only [main, redis.NewClient, redis.Client.HGet, context.Background, fmt.Println, h]

/-- The request that `main` sends, the client it creates, and the store after
the run, whatever the reply is. -/
theorem main_trace {σ : Type} (E : Backend σ) (p : Proc σ) :
    (main E p).2.sent = p.sent ++ [Cmd.HGet targetKey (lit "data")] ∧
    (main E p).2.opened =
      p.opened ++ [{ Addr := lit "localhost:6379", Password := lit "", DB := 0 }] ∧
    (main E p).2.srv = (E (Cmd.HGet targetKey (lit "data")) p.srv).2 := by
  rcases h : replyOf E p with ⟨v, _ | e⟩
  · rw [main_ok E p v h]; exact ⟨rfl, rfl, rfl⟩
  · rw [main_err E p v e h]; exact ⟨rfl, rfl, rfl⟩

/-- The outcome of `main` is decided by the error of the reply alone. -/
theorem main_returned_iff {σ : Type} (E : Backend σ) (p : Proc σ) :
    (main E p).1 = Outcome.returned ↔ (replyOf E p).err = none := by
  rcases h : replyOf E p with ⟨v, _ | e⟩
  · rw [main_ok E p v h]; simp
  · rw [main_err E p v e h]; simp

/-- Standard output of a successful run of a fresh process. -/
theorem stdout_start_ok {σ : Type} (E : Backend σ) (args environ : List GoString) (s : σ)
    (v : GoString) (h : replyOf E (Proc.start args environ s) = ⟨v, none⟩) :
    (main E (Proc.start args environ s)).2.stdout = lit "key " ++ v ++ lit "\n" := by
  rw [main_ok E _ v h]
  simp [Proc.stdout, Proc.start]

/-- The reply of the concrete store that holds `v` in field "data" of the target key. -/
theorem replyOf_holding (args environ : List GoString) (v : GoString) :
    replyOf Server.exec (Proc.start args environ (Server.holding [(lit "data", v)]))
      = ⟨v, none⟩ := by
  simp [replyOf, Proc.start, Server.holding, Server.exec, List.lookup]

/-- The concrete store answers `HGET` without changing its state. -/
theorem Server.exec_HGet_snd (key field : GoString) (srv : Server) :
    (Server.exec (Cmd.HGet key field) srv).2 = srv := by
  rcases srv with ⟨_ | e, db⟩
  · simp only [Server.exec]
    split
    · rfl
    · split <;> rfl
  · rfl

/-- A run against the concrete store leaves the store as it found it. -/
theorem main_srv_unchanged (p : Proc Server) : (main Server.exec p).2.srv = p.srv := by
  rw [(main_trace Server.exec p).2.2, Server.exec_HGet_snd]

/-- Every run of a sequence against the concrete store is the same run. -/
theorem runs_eq_replicate (args environ : List GoString) (srv : Server) (n : Nat) :
    runs Server.exec args environ n srv
      = List.replicate n (main Server.exec (Proc.start args environ srv)) := by
  induction n with
  | zero => rfl
  | succ k ih =>
    have hs : (main Server.exec (Proc.start args environ srv)).2.srv = srv :=
      main_srv_unchanged (Proc.start args environ srv)
    simp only [runs, hs, ih, List.replicate_succ]

/-- The configuration in which a run started in process state `p` ends. -/
theorem step_init {σ : Type} (E : Backend σ) (p : Proc σ) :
    step E (Config.init p)
      = some { state := State.Terminated, proc := (main E p).2, outcome := some (main E p).1 } :=
  rfl

/-- A terminated configuration has no step. -/
theorem step_terminated {σ : Type} (E : Backend σ) (c : Config σ)
    (h : c.state = State.Terminated) : step E c = none := by
  simp [step, h]

/-- The requests that the attempts of the client put on a recording backend are
copies of the command, at least one and at most one more than the retries
allowed. -/
theorem attempts_logged {σ : Type} (retry : Error → Bool) (W : Backend σ) (c : Cmd)
    (n : Nat) :
    ∀ st : σ × List Cmd, ∃ k, 1 ≤ k ∧ k ≤ n + 1 ∧
      (redis.attempts retry (Backend.logged W) c n st).2.2 = st.2 ++ List.replicate k c := by
  induction n with
  | zero =>
    intro st
    exact ⟨1, le_refl _, le_refl _, rfl⟩
  | succ m ih =>
    intro st
    unfold redis.attempts
    split
    · exact ⟨1, le_refl _, by omega, rfl⟩
    · rename_i e _
      by_cases hr : retry e = true
      · obtain ⟨k, hk1, hk2, hk⟩ := ih (Backend.logged W c st).2
        refine ⟨k + 1, by omega, by omega, ?_⟩
        rw [if_pos hr, hk]
        simp [Backend.logged, List.replicate_succ]
      · rw [if_neg hr]
        exact ⟨1, le_refl _, by omega, rfl⟩

/-- An attempt that does not fail with a retryable error is the only one. -/
theorem attempts_single {σ : Type} (retry : Error → Bool) (W : Backend σ) (c : Cmd)
    (n : Nat) (s : σ) (h : ∀ e, (W c s).1.err = some e → retry e = false) :
    redis.attempts retry W c n s = W c s := by
  cases n with
  | zero => rfl
  | succ m =>
    unfold redis.attempts
    split
    · rfl
    · rename_i e he
      rw [if_neg (by rw [h e he]; exact Bool.false_ne_true)]

/-- The error of a loading server is one that the client retries. -/
theorem shouldRetry_loadingError : redis.shouldRetry loadingError = true := by
  decide

/-! ## The claims -/

/-- C1: when the request for the compiled-in key and field "data" returns `v`
with a nil error, `main` writes exactly the label "key", one space, `v` and a
newline to standard output (in one write), does not panic, and the process ends
with exit code 0. -/
theorem main_success_prints_key_value {σ : Type} (E : Backend σ)
    (args environ : List GoString) (s : σ) (v : GoString)
    (h : replyOf E (Proc.start args environ s) = ⟨v, none⟩) :
    (main E (Proc.start args environ s)).2.writes = [lit "key" ++ lit " " ++ v ++ lit "\n"] ∧
    (main E (Proc.start args environ s)).2.stdout = lit "key" ++ lit " " ++ v ++ lit "\n" ∧
    (main E (Proc.start args environ s)).1 = Outcome.returned ∧
    (main E (Proc.start args environ s)).1.exitCode = 0 := by
  rw [main_ok E _ v h]
  simp [Proc.stdout, Proc.start, lit_key_space, Outcome.exitCode]

/-- Witness of C1: the store holds "hello" in field "data" of the target key;
the output is the line `key hello`. -/
theorem main_success_prints_key_value_witness :
    replyOf Server.exec (Proc.start [] [] (Server.holding [(lit "data", lit "hello")]))
      = ⟨lit "hello", none⟩ ∧
    (main Server.exec (Proc.start [] [] (Server.holding [(lit "data", lit "hello")]))).2.stdout
      = lit "key hello\n" ∧
    (main Server.exec (Proc.start [] [] (Server.holding [(lit "data", lit "hello")]))).1.exitCode
      = 0 := by
  have h := replyOf_holding [] [] (lit "hello")
  have t := main_success_prints_key_value Server.exec [] [] _ (lit "hello") h
  refine ⟨h, ?_, t.2.2.2⟩
  rw [t.2.1]
  decide

/-- C2: when the request returns a non-nil error `e` (of any kind, and whatever
value comes with it), `main` panics with exactly `e` as the panic value, writes
nothing to standard output, and the process ends with a non-zero status. -/
theorem main_error_panics {σ : Type} (E : Backend σ)
    (args environ : List GoString) (s : σ) (v : GoString) (e : Error)
    (h : replyOf E (Proc.start args environ s) = ⟨v, some e⟩) :
    (main E (Proc.start args environ s)).1 = Outcome.panicked e ∧
    (main E (Proc.start args environ s)).2.writes = [] ∧
    (main E (Proc.start args environ s)).2.stdout = [] ∧
    (main E (Proc.start args environ s)).1.exitCode ≠ 0 := by
  rw [main_err E _ v e h]
  simp [Proc.stdout, Proc.start, Outcome.exitCode]

/-- Witness of C2: the store cannot be reached; `main` panics with the
connection error and prints nothing. -/
theorem main_error_panics_witness :
    replyOf Server.exec
        (Proc.start [] [] { fault := some (Error.dial (lit "connection refused")), db := [] })
      = ⟨[], some (Error.dial (lit "connection refused"))⟩ ∧
    (main Server.exec
        (Proc.start [] [] { fault := some (Error.dial (lit "connection refused")), db := [] })).1
      = Outcome.panicked (Error.dial (lit "connection refused")) ∧
    (main Server.exec
        (Proc.start [] [] { fault := some (Error.dial (lit "connection refused")), db := [] })).2.stdout
      = [] :=
  have h : replyOf Server.exec
      (Proc.start [] [] { fault := some (Error.dial (lit "connection refused")), db := [] })
      = ⟨[], some (Error.dial (lit "connection refused"))⟩ := by
    simp [replyOf, Proc.start, Server.exec]
  have t := main_error_panics Server.exec [] [] _ [] _ h
  ⟨h, t.1, t.2.2.1⟩

/-- C3: for every successful invocation and every stored value `v`, the output
starts with the 4 bytes "key ", ends with one newline, and what is left after
removing these is exactly `v`. -/
theorem stdout_value_roundtrip {σ : Type} (E : Backend σ)
    (args environ : List GoString) (s : σ) (v : GoString)
    (h : replyOf E (Proc.start args environ s) = ⟨v, none⟩) :
    (lit "key ").length = 4 ∧
    (main E (Proc.start args environ s)).2.stdout.take 4 = lit "key " ∧
    (main E (Proc.start args environ s)).2.stdout.getLast? = some 10 ∧
    ((main E (Proc.start args environ s)).2.stdout.drop 4).dropLast = v ∧
    (main E (Proc.start args environ s)).2.stdout.length = v.length + 5 := by
  have h4 : (lit "key ").length = 4 := by decide
  rw [stdout_start_ok E args environ s v h, lit_newline, List.append_assoc]
  refine ⟨h4, ?_, ?_, ?_, ?_⟩
  · rw [← h4, List.take_left]
  · rw [← List.append_assoc]; simp
  · rw [← h4, List.drop_left, List.dropLast_concat]
  · simp [h4]; omega

/-- Witness of C3: a stored value with a space, a newline, a NUL byte and a byte
that is not valid UTF-8. -/
theorem stdout_value_roundtrip_witness :
    replyOf Server.exec
        (Proc.start [] [] (Server.holding [(lit "data", [32, 10, 0, 255])]))
      = ⟨[32, 10, 0, 255], none⟩ ∧
    ((main Server.exec
        (Proc.start [] [] (Server.holding [(lit "data", [32, 10, 0, 255])]))).2.stdout.drop 4).dropLast
      = [32, 10, 0, 255] :=
  have h := replyOf_holding [] [] [32, 10, 0, 255]
  ⟨h, (stdout_value_roundtrip Server.exec [] [] _ [32, 10, 0, 255] h).2.2.2.1⟩

/-- C4, as stated, fails: with the stored value "a", newline, "b" the invocation is
successful and the output has two newline characters, not one. -/
theorem stdout_two_newlines :
    replyOf Server.exec (Proc.start [] [] (Server.holding [(lit "data", lit "a\nb")]))
      = ⟨lit "a\nb", none⟩ ∧
    (main Server.exec (Proc.start [] [] (Server.holding [(lit "data", lit "a\nb")]))).1
      = Outcome.returned ∧
    (main Server.exec (Proc.start [] [] (Server.holding [(lit "data", lit "a\nb")]))).2.stdout
      = lit "key a\nb\n" ∧
    (main Server.exec
      (Proc.start [] [] (Server.holding [(lit "data", lit "a\nb")]))).2.stdout.count 10 = 2 ∧
    ¬ ((main Server.exec
      (Proc.start [] [] (Server.holding [(lit "data", lit "a\nb")]))).2.stdout.count 10 = 1 ∧
      (main Server.exec
      (Proc.start [] [] (Server.holding [(lit "data", lit "a\nb")]))).2.stdout.getLast?
        = some 10) := by
  have h := replyOf_holding [] [] (lit "a\nb")
  rw [stdout_start_ok Server.exec [] [] _ _ h, main_ok Server.exec _ _ h]
  refine ⟨h, rfl, ?_, ?_, ?_⟩ <;> decide

/-- C4, amended: for every successful invocation `main` makes exactly one write to
standard output, the last byte of the output is a newline, the output has one
newline more than the stored value, and so exactly one newline when the stored
value contains none. -/
theorem stdout_one_line {σ : Type} (E : Backend σ)
    (args environ : List GoString) (s : σ) (v : GoString)
    (h : replyOf E (Proc.start args environ s) = ⟨v, none⟩) :
    (main E (Proc.start args environ s)).2.writes.length = 1 ∧
    (main E (Proc.start args environ s)).2.stdout.getLast? = some 10 ∧
    (main E (Proc.start args environ s)).2.stdout.count 10 = v.count 10 + 1 ∧
    (10 ∉ v → (main E (Proc.start args environ s)).2.stdout.count 10 = 1) := by
  have hk : (lit "key ").count 10 = 0 := by decide
  have hc : (main E (Proc.start args environ s)).2.stdout.count 10 = v.count 10 + 1 := by
    rw [stdout_start_ok E args environ s v h, lit_newline]
    simp [List.count_append, hk]
  refine ⟨?_, ?_, hc, ?_⟩
  · rw [main_ok E _ v h]; simp [Proc.start]
  · rw [stdout_start_ok E args environ s v h, lit_newline]; simp
  · intro hv
    rw [hc, List.count_eq_zero_of_not_mem hv]

/-- Witness of C4 (amended): the stored value "hello world" has no newline; the
output has exactly one. -/
theorem stdout_one_line_witness :
    replyOf Server.exec (Proc.start [] [] (Server.holding [(lit "data", lit "hello world")]))
      = ⟨lit "hello world", none⟩ ∧
    (10 : UInt8) ∉ lit "hello world" ∧
    (main Server.exec
      (Proc.start [] [] (Server.holding [(lit "data", lit "hello world")]))).2.stdout.count 10
        = 1 :=
  have h := replyOf_holding [] [] (lit "hello world")
  have hv : (10 : UInt8) ∉ lit "hello world" := by decide
  ⟨h, hv, (stdout_one_line Server.exec [] [] _ (lit "hello world") h).2.2.2 hv⟩

/-- C5: with a reachable store, a run against a store without a hash at the
target key and a run against a store whose hash at the target key has no field
"data" give the same observable result: a panic with the not-found error
`redis.Nil`, no standard output, a non-zero exit status. -/
theorem missing_key_same_as_missing_field (args environ : List GoString)
    (db1 db2 : Store) (hash : Hash)
    (h1 : db1.lookup targetKey = none)
    (h2 : db2.lookup targetKey = some hash)
    (h3 : hash.lookup (lit "data") = none) :
    (main Server.exec (Proc.start args environ ⟨none, db1⟩)).1 = Outcome.panicked Error.Nil ∧
    (main Server.exec (Proc.start args environ ⟨none, db2⟩)).1 = Outcome.panicked Error.Nil ∧
    (main Server.exec (Proc.start args environ ⟨none, db1⟩)).2.stdout = [] ∧
    (main Server.exec (Proc.start args environ ⟨none, db2⟩)).2.stdout = [] ∧
    (main Server.exec (Proc.start args environ ⟨none, db1⟩)).1.exitCode =
      (main Server.exec (Proc.start args environ ⟨none, db2⟩)).1.exitCode ∧
    (main Server.exec (Proc.start args environ ⟨none, db1⟩)).1.exitCode ≠ 0 := by
  have r1 : replyOf Server.exec (Proc.start args environ ⟨none, db1⟩)
      = ⟨[], some Error.Nil⟩ := by
    simp [replyOf, Proc.start, Server.exec, h1]
  have r2 : replyOf Server.exec (Proc.start args environ ⟨none, db2⟩)
      = ⟨[], some Error.Nil⟩ := by
    simp [replyOf, Proc.start, Server.exec, h2, h3]
  rw [main_err Server.exec _ _ _ r1, main_err Server.exec _ _ _ r2]
  simp [Proc.stdout, Proc.start, Outcome.exitCode]

/-- Witness of C5: an empty store, and a store whose hash at the target key has
only the field "other". -/
theorem missing_key_same_as_missing_field_witness :
    (main Server.exec (Proc.start [] [] ⟨none, []⟩)).1 = Outcome.panicked Error.Nil ∧
    (main Server.exec
      (Proc.start [] [] ⟨none, [(targetKey, [(lit "other", lit "x")])]⟩)).1
        = Outcome.panicked Error.Nil :=
  have t := missing_key_same_as_missing_field [] [] [] [(targetKey, [(lit "other", lit "x")])]
    [(lit "other", lit "x")] rfl (by simp [List.lookup]) (by decide)
  ⟨t.1, t.2.1⟩

/-- C6: for every state `srv` of the store and every `n ≥ 1`, running `main` `n`
times in sequence from `srv` gives `n` runs, each of which leaves the store
equal to `srv`, has the standard output of the first run and ends as the first
run does. -/
theorem runs_idempotent (args environ : List GoString) (srv : Server) (n : Nat)
    (hn : 1 ≤ n) :
    (runs Server.exec args environ n srv).length = n ∧
    (runs Server.exec args environ n srv).head?
      = some (main Server.exec (Proc.start args environ srv)) ∧
    (∀ r ∈ runs Server.exec args environ n srv,
      r.2.srv = srv ∧
      r.2.sent = [Cmd.HGet targetKey (lit "data")] ∧
      r.2.stdout = (main Server.exec (Proc.start args environ srv)).2.stdout ∧
      r.1 = (main Server.exec (Proc.start args environ srv)).1) := by
  rw [runs_eq_replicate]
  refine ⟨List.length_replicate _ _, ?_, ?_⟩
  · obtain ⟨k, rfl⟩ : ∃ k, n = k + 1 := ⟨n - 1, by omega⟩
    rfl
  · intro r hr
    rw [List.eq_of_mem_replicate hr]
    refine ⟨main_srv_unchanged _, ?_, rfl, rfl⟩
    rw [(main_trace Server.exec _).1]
    rfl

/-- Witness of C6: three runs against a store that holds "hello". -/
theorem runs_idempotent_witness :
    1 ≤ 3 ∧
    (runs Server.exec [] [] 3 (Server.holding [(lit "data", lit "hello")])).length = 3 ∧
    ∀ r ∈ runs Server.exec [] [] 3 (Server.holding [(lit "data", lit "hello")]),
      r.2.srv = Server.holding [(lit "data", lit "hello")] ∧
      r.2.stdout = (main Server.exec
        (Proc.start [] [] (Server.holding [(lit "data", lit "hello")]))).2.stdout :=
  have t := runs_idempotent [] [] (Server.holding [(lit "data", lit "hello")]) 3 (by decide)
  ⟨by decide, t.1, fun r hr => ⟨(t.2.2 r hr).1, (t.2.2 r hr).2.2.1⟩⟩

/-- C7, as stated, fails: against a server that is still loading when the first
request arrives, the run succeeds and prints `key hello`, and the server has
received two `HGET` requests, the second one a retry by the client. -/
theorem retry_sends_second_hget :
    (main (redis.process (Backend.logged startingServer)) (Proc.start [] [] (0, []))).1
      = Outcome.returned ∧
    (main (redis.process (Backend.logged startingServer)) (Proc.start [] [] (0, []))).2.stdout
      = lit "key hello\n" ∧
    (main (redis.process (Backend.logged startingServer)) (Proc.start [] [] (0, []))).2.srv.2
      = [Cmd.HGet targetKey (lit "data"), Cmd.HGet targetKey (lit "data")] ∧
    (main (redis.process (Backend.logged startingServer)) (Proc.start [] [] (0, []))).2.srv.2
      ≠ [Cmd.HGet targetKey (lit "data")] := by
  have hp : redis.process (Backend.logged startingServer) (Cmd.HGet targetKey (lit "data"))
      ((0 : Nat), ([] : List Cmd))
      = (⟨lit "hello", none⟩,
          (2, [Cmd.HGet targetKey (lit "data"), Cmd.HGet targetKey (lit "data")])) := by
    simp [redis.process, redis.defaultMaxRetries, redis.attempts, Backend.logged,
      startingServer, shouldRetry_loadingError]
  have h : replyOf (redis.process (Backend.logged startingServer)) (Proc.start [] [] (0, []))
      = ⟨lit "hello", none⟩ := by
    simp only [replyOf, Proc.start, hp]
  have hlog :
      (main (redis.process (Backend.logged startingServer)) (Proc.start [] [] (0, []))).2.srv.2
        = [Cmd.HGet targetKey (lit "data"), Cmd.HGet targetKey (lit "data")] := by
    rw [(main_trace _ _).2.2]
    simp only [Proc.start, hp]
  refine ⟨?_, ?_, hlog, ?_⟩
  · rw [main_ok _ _ _ h]
  · rw [stdout_start_ok _ [] [] _ _ h]
    decide
  · rw [hlog]
    intro hne
    exact absurd (congrArg List.length hne) (by decide)

/-- C7, amended: in every run `main` hands exactly one request to the client, an
`HGET` whose key is the compiled-in key string, unchanged, and whose field is
"data".  For this call the client makes between one and four attempts on the
connection, each of them that same `HGET` and none a write command; it makes a
single attempt unless the first one fails with a retryable error.  (The set-up
commands of the library on a new connection are outside the statement.) -/
theorem main_one_call_bounded_attempts {σ : Type} (W : Backend σ)
    (args environ : List GoString) (s : σ) :
    (main (Backend.logged W) (Proc.start args environ (s, []))).2.srv.2 =
      [Cmd.HGet
        (lit "helloworldworkflow-app||dapr.internal.dapr-tests.helloworldworkflow-app.workflow||51d33015-7f97-4208-b2ed-19338e591aef||history-000005")
        (lit "data")] ∧
    (∃ k, 1 ≤ k ∧ k ≤ 4 ∧
      (main (redis.process (Backend.logged W)) (Proc.start args environ (s, []))).2.srv.2
        = List.replicate k (Cmd.HGet targetKey (lit "data"))) ∧
    (∀ c ∈ (main (redis.process (Backend.logged W)) (Proc.start args environ (s, []))).2.srv.2,
      c = Cmd.HGet targetKey (lit "data") ∧ c.isWrite = false) ∧
    ((∀ e, (W (Cmd.HGet targetKey (lit "data")) s).1.err = some e →
        redis.shouldRetry e = false) →
      (main (redis.process (Backend.logged W)) (Proc.start args environ (s, []))).2.srv.2
        = [Cmd.HGet targetKey (lit "data")]) := by
  obtain ⟨k, hk1, hk2, hk⟩ := attempts_logged redis.shouldRetry W
    (Cmd.HGet targetKey (lit "data")) redis.defaultMaxRetries (s, [])
  have hlog : (main (redis.process (Backend.logged W)) (Proc.start args environ (s, []))).2.srv.2
      = List.replicate k (Cmd.HGet targetKey (lit "data")) := by
    rw [(main_trace _ _).2.2]
    simpa [redis.process, Proc.start] using hk
  refine ⟨?_, ⟨k, hk1, hk2, hlog⟩, ?_, ?_⟩
  · rw [(main_trace _ _).2.2]
    rfl
  · intro c hc
    rw [hlog] at hc
    rw [List.eq_of_mem_replicate hc]
    exact ⟨rfl, rfl⟩
  · intro hno
    rw [(main_trace _ _).2.2]
    have h1 := attempts_single redis.shouldRetry (Backend.logged W)
      (Cmd.HGet targetKey (lit "data")) redis.defaultMaxRetries (s, []) hno
    simp only [redis.process, Proc.start, h1]
    rfl

/-- Witness of C7 (amended): against the store that holds "hello" the first
attempt succeeds, and the store receives one `HGET`. -/
theorem main_one_call_bounded_attempts_witness :
    (main (redis.process (Backend.logged Server.exec))
      (Proc.start [] [] (Server.holding [(lit "data", lit "hello")], []))).2.srv.2
        = [Cmd.HGet targetKey (lit "data")] :=
  (main_one_call_bounded_attempts Server.exec [] []
    (Server.holding [(lit "data", lit "hello")])).2.2.2
    (by
      intro e he
      have hr := replyOf_holding [] [] (lit "hello")
      simp only [replyOf, Proc.start] at hr
      rw [hr] at he
      exact Option.noConfusion he)

/-- C8: the options that `main` passes to `redis.NewClient` are address
"localhost:6379", the empty password and database 0, in every run: they are the
same for any two backends, argument lists, environments and store states. -/
theorem main_options_fixed {σ τ : Type} (E : Backend σ) (F : Backend τ)
    (args environ args2 environ2 : List GoString) (s : σ) (t : τ) :
    (main E (Proc.start args environ s)).2.opened =
      [{ Addr := lit "localhost:6379", Password := [], DB := 0 }] ∧
    (main E (Proc.start args environ s)).2.opened =
      (main F (Proc.start args2 environ2 t)).2.opened := by
  rw [(main_trace E _).2.1, (main_trace F _).2.1]
  exact ⟨rfl, rfl⟩

/-- C9: in the machine with states `Running` and `Terminated`, the start
configuration has exactly one successor, whatever the reply to the request is;
it is `Terminated` and has no successor.  It is reached either with one write
to standard output and no panic (nil error) or with a panic and no write
(non-nil error), never with both and never with neither, and the configurations
reachable from the start are the start and this one only. -/
theorem machine_terminates_in_one_step {σ : Type} (E : Backend σ)
    (args environ : List GoString) (s : σ) :
    ∃ c : Config σ,
      Step E (Config.init (Proc.start args environ s)) c ∧
      (∀ d, Step E (Config.init (Proc.start args environ s)) d → d = c) ∧
      c.state = State.Terminated ∧
      (∀ d, ¬ Step E c d) ∧
      (((replyOf E (Proc.start args environ s)).err = none ∧
          c.proc.writes.length = 1 ∧ c.outcome = some Outcome.returned) ∨
        (∃ e, (replyOf E (Proc.start args environ s)).err = some e ∧
          c.proc.writes = [] ∧ c.outcome = some (Outcome.panicked e))) ∧
      ¬ (c.proc.writes ≠ [] ∧ ∃ e, c.outcome = some (Outcome.panicked e)) ∧
      (c.proc.writes ≠ [] ∨ ∃ e, c.outcome = some (Outcome.panicked e)) ∧
      (∀ d, Reachable E (Proc.start args environ s) d →
        (d = Config.init (Proc.start args environ s) ∧ d.state = State.Running) ∨ d = c) := by
  have huniq : ∀ d, Step E (Config.init (Proc.start args environ s)) d →
      d = { state := State.Terminated, proc := (main E (Proc.start args environ s)).2,
            outcome := some (main E (Proc.start args environ s)).1 } := by
    intro d hd
    unfold Step at hd
    rw [step_init] at hd
    exact (Option.some.inj hd).symm
  have hstuck : ∀ d, ¬ Step E
      { state := State.Terminated, proc := (main E (Proc.start args environ s)).2,
        outcome := some (main E (Proc.start args environ s)).1 } d := by
    intro d hd
    unfold Step at hd
    rw [step_terminated E _ rfl] at hd
    exact Option.noConfusion hd
  refine ⟨{ state := State.Terminated, proc := (main E (Proc.start args environ s)).2,
            outcome := some (main E (Proc.start args environ s)).1 },
          step_init E _, huniq, rfl, hstuck, ?_, ?_, ?_, ?_⟩
  · rcases h : replyOf E (Proc.start args environ s) with ⟨v, _ | e⟩
    · left
      rw [main_ok E _ v h]
      simp [Proc.start]
    · right
      rw [main_err E _ v e h]
      exact ⟨e, rfl, rfl, rfl⟩
  · rcases h : replyOf E (Proc.start args environ s) with ⟨v, _ | e⟩
    · rw [main_ok E _ v h]
      simp
    · rw [main_err E _ v e h]
      simp [Proc.start]
  · rcases h : replyOf E (Proc.start args environ s) with ⟨v, _ | e⟩
    · left
      rw [main_ok E _ v h]
      simp
    · right
      rw [main_err E _ v e h]
      exact ⟨e, rfl⟩
  · intro d hd
    unfold Reachable at hd
    induction hd with
    | refl => exact Or.inl ⟨rfl, rfl⟩
    | tail _ hstep ih =>
      rcases ih with ⟨hb, _⟩ | hb
      · rw [hb] at hstep
        exact Or.inr (huniq _ hstep)
      · rw [hb] at hstep
        exact absurd hstep (hstuck _)

/-- C10: an empty value with a nil error is a success: `main` returns without a
panic and writes the 5 bytes "key ", newline to standard output; in general
`main` returns exactly when the error of the reply is nil, whatever the value. -/
theorem empty_value_is_success {σ : Type} (E : Backend σ)
    (args environ : List GoString) (s : σ)
    (h : replyOf E (Proc.start args environ s) = ⟨[], none⟩) :
    (main E (Proc.start args environ s)).1 = Outcome.returned ∧
    (main E (Proc.start args environ s)).2.writes = [lit "key \n"] ∧
    (main E (Proc.start args environ s)).2.stdout = lit "key \n" ∧
    (main E (Proc.start args environ s)).2.stdout.length = 5 ∧
    (∀ (τ : Type) (F : Backend τ) (p : Proc τ),
      (main F p).1 = Outcome.returned ↔ (replyOf F p).err = none) := by
  have hk : lit "key " ++ [] ++ lit "\n" = lit "key \n" := by decide
  have hl : (lit "key \n").length = 5 := by decide
  rw [stdout_start_ok E args environ s [] h, main_ok E _ [] h, hk]
  exact ⟨rfl, rfl, rfl, hl, fun τ F p => main_returned_iff F p⟩

/-- Witness of C10: the store holds the empty string in field "data". -/
theorem empty_value_is_success_witness :
    replyOf Server.exec (Proc.start [] [] (Server.holding [(lit "data", [])])) = ⟨[], none⟩ ∧
    (main Server.exec (Proc.start [] [] (Server.holding [(lit "data", [])]))).1
      = Outcome.returned ∧
    (main Server.exec (Proc.start [] [] (Server.holding [(lit "data", [])]))).2.stdout
      = [107, 101, 121, 32, 10] :=
  have h := replyOf_holding [] [] []
  have t := empty_value_is_success Server.exec [] [] _ h
  ⟨h, t.1, t.2.2.1.trans (by decide)⟩

end Fetch
